import Mathlib

/-!
Verification development for the santa-claus-hats repository.

The functional core of the repository is the function add_santa_hat in
src/app.py (lines 17-63): it converts the base (profile) image and the
overlay (santa hat) image to RGBA, resizes the overlay to a width given by
int(profile.width * scale) keeping the aspect ratio, rotates it with an
expanded bounding box, computes a placement position that centers the
overlay horizontally (floor division) and uses the vertical offset
directly, and pastes the overlay onto a copy of the base using the
overlay itself as the alpha mask.

Embedding choices, recorded here once:
* Images are in-memory RGBA rasters (spec section 3): a width, a height and
  a total pixel function.  Pixel channels are natural numbers; byte-valued
  rasters are described by the predicate Image.Valid.
* Python floats are modelled by exact rationals; Python int() truncation is
  pyInt, Python floor division (//) is Int.fdiv.
* The Pillow library calls used by the source are embedded from Pillow's
  documented behaviour: integer paste/composite pixel arithmetic follows
  the fixed-point formulas of Pillow's Paste.c and AlphaComposite.c;
  Image.resize raises ValueError when a target side is below 1 (modelled
  as the error result of add_santa_hat); rotate has exact fast paths at
  multiples of 90 degrees.  The floating-point interior of the LANCZOS
  resampling filter and of general-angle rotation is not exactly
  representable; those two pixel-content functions are modelled from the
  spec (see the doc comments on Image.resize and Image.rotate).
-/

/-- One RGBA pixel: red, green, blue, alpha channels. -/
structure Pixel where
  r : ℕ
  g : ℕ
  b : ℕ
  a : ℕ
  deriving DecidableEq, Repr

/-- An in-memory raster (spec section 3): width, height, per-pixel RGBA
channels.  The pixel function is total; only coordinates with
x < width and y < height are meaningful. -/
structure Image where
  width : ℕ
  height : ℕ
  pix : ℕ → ℕ → Pixel

/-- The fully transparent pixel (0, 0, 0, 0). -/
def transparentPixel : Pixel := ⟨0, 0, 0, 0⟩

instance : Inhabited Image := ⟨⟨0, 0, fun _ _ => transparentPixel⟩⟩

/-- PIL Image.new with a constant fill colour: a constant raster. -/
def Image.new (w h : ℕ) (c : Pixel) : Image := ⟨w, h, fun _ _ => c⟩

/-- A raster is byte-valued when every in-range channel is at most 255. -/
def Image.Valid (im : Image) : Prop :=
  ∀ x, x < im.width → ∀ y, y < im.height →
    (im.pix x y).r ≤ 255 ∧ (im.pix x y).g ≤ 255 ∧
    (im.pix x y).b ≤ 255 ∧ (im.pix x y).a ≤ 255

instance (im : Image) : Decidable im.Valid := by
  unfold Image.Valid; infer_instance

/-- Conversion to RGBA (source lines 39-40).  The model's rasters are
already RGBA (spec section 3: both images are converted to RGBA before any
operation), so the conversion is the identity on the data model. -/
def convertRGBA (im : Image) : Image := im

/-- Pillow's MULDIV255 macro (Paste.c): fixed-point approximation of
a * b / 255, as (t >> 8) + t) >> 8 with t = a * b + 128. -/
def MULDIV255 (a b : ℕ) : ℕ :=
  let t := a * b + 128
  (t / 256 + t) / 256

/-- Pillow's BLEND macro (Paste.c): linear interpolation between the
in1 (background) and in2 (pasted) channel values, weighted by the mask. -/
def BLEND (mask in1 in2 : ℕ) : ℕ :=
  MULDIV255 in1 (255 - mask) + MULDIV255 in2 mask

/-- One pixel of a masked paste (Pillow paste with an RGBA mask): every
channel, the alpha channel included, is interpolated between destination
and source with the mask value as weight. -/
def blendPixel (mask : ℕ) (dst src : Pixel) : Pixel :=
  ⟨BLEND mask dst.r src.r, BLEND mask dst.g src.g,
   BLEND mask dst.b src.b, BLEND mask dst.a src.a⟩

/-- Pillow's SHIFTFORDIV255 macro (AlphaComposite.c). -/
def SHIFTFORDIV255 (a : ℕ) : ℕ := (a / 256 + a) / 256

/-- One pixel of PIL Image.alpha_composite (AlphaComposite.c, with
PRECISION_BITS = 7): the source-over operator in fixed-point arithmetic,
with an exact copy of the destination when the source alpha is 0. -/
def alphaCompositePixel (dst src : Pixel) : Pixel :=
  if src.a = 0 then dst
  else
    let blend := dst.a * (255 - src.a)
    let outa255 := src.a * 255 + blend
    let coef1 := src.a * 255 * 255 * 128 / outa255
    let coef2 := 255 * 128 - coef1
    let chan := fun (cs cd : ℕ) =>
      SHIFTFORDIV255 (cs * coef1 + cd * coef2 + 128 * 128) / 128
    ⟨chan src.r dst.r, chan src.g dst.g, chan src.b dst.b,
     SHIFTFORDIV255 (outa255 + 128)⟩

/-- PIL Image.alpha_composite (source line 58): composites the second
image over the first, pixel by pixel.  Pillow requires both images to have
the same size; the source only calls it on images of equal size, and the
model gives the result the size of the first image. -/
def Image.alpha_composite (dst src : Image) : Image :=
  ⟨dst.width, dst.height, fun x y => alphaCompositePixel (dst.pix x y) (src.pix x y)⟩

/-- PIL Image.paste with a mask (source line 61), as a pure function on the
destination: inside the pasted box every channel is blended by the mask
value (here the alpha channel of the pasted image itself); outside the box
the destination is unchanged.  A box reaching beyond the destination
borders is silently clipped, because only in-range destination coordinates
are meaningful. -/
def Image.paste (dst src : Image) (pos : ℤ × ℤ) : Image :=
  ⟨dst.width, dst.height, fun x y =>
    if pos.1 ≤ (x : ℤ) ∧ (x : ℤ) < pos.1 + src.width ∧
       pos.2 ≤ (y : ℤ) ∧ (y : ℤ) < pos.2 + src.height then
      blendPixel (src.pix ((x : ℤ) - pos.1).toNat ((y : ℤ) - pos.2).toNat).a
        (dst.pix x y)
        (src.pix ((x : ℤ) - pos.1).toNat ((y : ℤ) - pos.2).toNat)
    else dst.pix x y⟩

/-- Clamp an integer channel value into the byte range. -/
def clamp8 (z : ℤ) : ℕ := (min 255 (max 0 z)).toNat

/-- Clamp t into the interval from lo to hi. -/
def clampQ (lo hi t : ℚ) : ℚ := max lo (min hi t)

/-- Fractional overlap of source cell number j with the preimage of target
cell number x, when a source axis of size src is resampled to size tgt:
the length of the intersection of the intervals from j to j+1 and from
x*src/tgt to (x+1)*src/tgt, written as a difference of clamps. -/
def colWeight (src tgt x j : ℕ) : ℚ :=
  clampQ ((x : ℚ) * src / tgt) (((x : ℚ) + 1) * src / tgt) ((j : ℚ) + 1) -
    clampQ ((x : ℚ) * src / tgt) (((x : ℚ) + 1) * src / tgt) (j : ℚ)

/-- One resampled channel value: the exact area-weighted average of the
source channel over the preimage box of the target pixel, rounded and
clamped to the byte range. -/
def resampleChannel (f : ℕ → ℕ → ℕ) (sw sh w h x y : ℕ) : ℕ :=
  clamp8 (round ((∑ j ∈ Finset.range sw, ∑ i ∈ Finset.range sh,
    colWeight sw w x j * colWeight sh h y i * (f j i : ℚ)) *
      ((w : ℚ) * (h : ℚ) / ((sw : ℚ) * (sh : ℚ)))))

/-- Modelled from the spec: PIL Image.resize with the LANCZOS filter
(source line 45).  The spec (section 4.1 step 3 and the glossary) describes
the resampling as a high-quality area-averaging filter; Pillow's LANCZOS
kernel is computed in floating point and is not exactly representable, so
the pixel content is modelled as the exact-rational area average.  The
output dimensions are exactly the requested ones, as in Pillow. -/
def Image.resize (im : Image) (w h : ℕ) : Image :=
  ⟨w, h, fun x y =>
    ⟨resampleChannel (fun j i => (im.pix j i).r) im.width im.height w h x y,
     resampleChannel (fun j i => (im.pix j i).g) im.width im.height w h x y,
     resampleChannel (fun j i => (im.pix j i).b) im.width im.height w h x y,
     resampleChannel (fun j i => (im.pix j i).a) im.width im.height w h x y⟩⟩

/-- Pillow transpose ROTATE_90: exact 90 degree counterclockwise rotation. -/
def rot90 (im : Image) : Image :=
  ⟨im.height, im.width, fun x y => im.pix (im.width - 1 - y) x⟩

/-- Pillow transpose ROTATE_180: exact 180 degree rotation. -/
def rot180 (im : Image) : Image :=
  ⟨im.width, im.height, fun x y => im.pix (im.width - 1 - x) (im.height - 1 - y)⟩

/-- Pillow transpose ROTATE_270: exact 270 degree counterclockwise rotation. -/
def rot270 (im : Image) : Image :=
  ⟨im.height, im.width, fun x y => im.pix y (im.height - 1 - x)⟩

/-- Rational approximation of the sine of r degrees for r between 0 and
180, by the classical Bhaskara formula. -/
def bhaskara (r : ℤ) : ℚ :=
  ((4 * r * (180 - r) : ℤ) : ℚ) / ((40500 - r * (180 - r) : ℤ) : ℚ)

/-- Sine of an integer number of degrees, as an exact rational
approximation (exact at multiples of 90). -/
def sinDeg (d : ℤ) : ℚ :=
  let r := d % 360
  if r ≤ 180 then bhaskara r else -bhaskara (r - 180)

/-- Cosine of an integer number of degrees, via the sine. -/
def cosDeg (d : ℤ) : ℚ := sinDeg (d + 90)

/-- Modelled from the spec: PIL Image.rotate with expand=True (source
line 48).  Spec section 4.1 step 4: rotation about the image center with
the bounding box expanded so that no corner is clipped, the expanded
canvas being RGBA with a fully transparent fill outside the rotated
content.  Pillow's exact fast paths at angles 0, 90, 180 and 270 (copy or
transpose) are embedded exactly; at any other angle Pillow computes the
bounding box and the inverse mapping of its NEAREST resampling in
floating-point trigonometry, which is not exactly representable, so the
trigonometric functions are replaced by the rational Bhaskara
approximation. -/
def Image.rotate (im : Image) (deg : ℤ) : Image :=
  let a := deg % 360
  if a = 0 then im
  else if a = 90 then rot90 im
  else if a = 180 then rot180 im
  else if a = 270 then rot270 im
  else
    let c := cosDeg a
    let s := sinDeg a
    let nw := (Int.ceil ((im.width : ℚ) * |c| + (im.height : ℚ) * |s|)).toNat
    let nh := (Int.ceil ((im.width : ℚ) * |s| + (im.height : ℚ) * |c|)).toNat
    ⟨nw, nh, fun x y =>
      let dx := (x : ℚ) + 1/2 - (nw : ℚ) / 2
      let dy := (y : ℚ) + 1/2 - (nh : ℚ) / 2
      let xs := (im.width : ℚ) / 2 + c * dx - s * dy
      let ys := (im.height : ℚ) / 2 + s * dx + c * dy
      if 0 ≤ ⌊xs⌋ ∧ ⌊xs⌋ < (im.width : ℤ) ∧ 0 ≤ ⌊ys⌋ ∧ ⌊ys⌋ < (im.height : ℤ)
      then im.pix ⌊xs⌋.toNat ⌊ys⌋.toNat
      else transparentPixel⟩

/-- Python float-to-int conversion int(q): truncation toward zero. -/
def pyInt (q : ℚ) : ℤ := if q < 0 then ⌈q⌉ else ⌊q⌋

/-- Source line 43: hat_width = int(profile_image.width * hat_scale). -/
def hat_width (profile_image : Image) (hat_scale : ℚ) : ℤ :=
  pyInt ((profile_image.width : ℚ) * hat_scale)

/-- Source line 44:
hat_height = int(santa_hat.height * (hat_width / santa_hat.width)). -/
def hat_height (santa_hat : Image) (hw : ℤ) : ℤ :=
  pyInt ((santa_hat.height : ℚ) * ((hw : ℚ) / (santa_hat.width : ℚ)))

/-- Source line 45: the resized overlay (the santa_hat variable after the
resize call), for the converted images. -/
def resizedHat (profile_image santa_hat : Image) (hat_scale : ℚ) : Image :=
  let p := convertRGBA profile_image
  let s := convertRGBA santa_hat
  Image.resize s (hat_width p hat_scale).toNat (hat_height s (hat_width p hat_scale)).toNat

/-- Source line 48: the rotated overlay (the santa_hat variable after the
rotate call). -/
def rotatedHat (profile_image santa_hat : Image) (hat_scale : ℚ) (hat_rotation : ℤ) : Image :=
  Image.rotate (resizedHat profile_image santa_hat hat_scale) hat_rotation

/-- Source lines 51-55: placement position of the overlay; horizontal
centering by Python floor division, plus the horizontal offset; the
vertical offset is used directly. -/
def hat_position (profile_image rotated : Image) (hat_offset_x hat_offset_y : ℤ) : ℤ × ℤ :=
  (Int.fdiv ((profile_image.width : ℤ) - (rotated.width : ℤ)) 2 + hat_offset_x,
   hat_offset_y)

/-- Source line 59: Image.new("RGBA", profile_image.size, (0, 0, 0, 0)),
the fully transparent layer with the dimensions of the base image. -/
def transparentLayer (im : Image) : Image := Image.new im.width im.height transparentPixel

/-- Errors surfaced by the compositing call.  Spec section 7 names
invalidParameter for a designed fail-fast parameter check; Pillow's resize
raises a plain ValueError when a requested dimension is below 1, modelled
as libraryValueError. -/
inductive CompositeError where
  | invalidParameter
  | libraryValueError
  deriving DecidableEq, Repr

/-- The image built by the success path of add_santa_hat (source lines
58-61): the rotated overlay pasted, with itself as mask, onto the result
of alpha-compositing a fully transparent layer over the base image. -/
def compositeImage (profile_image santa_hat : Image) (hat_scale : ℚ)
    (hat_offset_x hat_offset_y hat_rotation : ℤ) : Image :=
  let p := convertRGBA profile_image
  let rh := rotatedHat profile_image santa_hat hat_scale hat_rotation
  Image.paste (Image.alpha_composite p (transparentLayer p)) rh
    (hat_position p rh hat_offset_x hat_offset_y)

/-- The compositor, src/app.py lines 17-63.  The source performs no
parameter validation of its own; the only failure on the embedded path is
Pillow's ValueError when the resize target width or height is below 1
(the source reaches the resize call with whatever int() produced). -/
def add_santa_hat (profile_image santa_hat : Image) (hat_scale : ℚ)
    (hat_offset_x hat_offset_y hat_rotation : ℤ) : Except CompositeError Image :=
  if 1 ≤ hat_width (convertRGBA profile_image) hat_scale ∧
     1 ≤ hat_height (convertRGBA santa_hat) (hat_width (convertRGBA profile_image) hat_scale)
  then .ok (compositeImage profile_image santa_hat hat_scale
        hat_offset_x hat_offset_y hat_rotation)
  else .error .libraryValueError

/-- Modelled from the spec (section 8, rotation neutrality): the same
pipeline with the rotation-and-bounding-box-expansion step skipped
entirely, for comparison with the full compositor at rotation 0. -/
def add_santa_hat_norotate (profile_image santa_hat : Image) (hat_scale : ℚ)
    (hat_offset_x hat_offset_y : ℤ) : Except CompositeError Image :=
  if 1 ≤ hat_width (convertRGBA profile_image) hat_scale ∧
     1 ≤ hat_height (convertRGBA santa_hat) (hat_width (convertRGBA profile_image) hat_scale)
  then
    let p := convertRGBA profile_image
    let rh := resizedHat profile_image santa_hat hat_scale
    .ok (Image.paste (Image.alpha_composite p (transparentLayer p)) rh
      (hat_position p rh hat_offset_x hat_offset_y))
  else .error .libraryValueError

/-- Modelled from the spec (section 3 glossary and section 4.1 step 6):
the alpha channel of the standard source-over operator on bytes,
out = src_a + dst_a * (255 - src_a) / 255, with rounding; stated for
comparison with what the code computes. -/
def overAlpha (srcA dstA : ℕ) : ℕ :=
  srcA + (dstA * (255 - srcA) + 127) / 255

/-- A store of heap-allocated images; references are list indices.  This
models the Python object heap for the frame-effect claim: PIL convert,
resize, rotate, Image.new and alpha_composite each return a fresh image,
while paste mutates its receiver in place. -/
abbrev Store : Type := List Image

/-- Read the image behind a reference. -/
def stRead (st : Store) (r : ℕ) : Image := List.getD st r default

/-- Allocate a fresh image, returning the new store and the new
reference. -/
def stAlloc (st : Store) (im : Image) : Store × ℕ :=
  (st ++ [im], List.length st)

/-- In-place update of the image behind a reference. -/
def stWrite (st : Store) (r : ℕ) (im : Image) : Store := List.set st r im

/-- State-passing embedding of add_santa_hat (source lines 39-63), making
the allocation and mutation behaviour of each PIL call explicit: every
call allocates a fresh image except the final paste (line 61), which
mutates the freshly allocated combined image in place.  The returned
reference is the combined image. -/
def add_santa_hat_state (st : Store) (rProfile rHat : ℕ) (hat_scale : ℚ)
    (hat_offset_x hat_offset_y hat_rotation : ℤ) : Store × Except CompositeError ℕ :=
  let a1 := stAlloc st (convertRGBA (stRead st rProfile))
  let st1 := a1.1
  let rP := a1.2
  let a2 := stAlloc st1 (convertRGBA (stRead st1 rHat))
  let st2 := a2.1
  let rH := a2.2
  let profile := stRead st2 rP
  let santa := stRead st2 rH
  let hw := hat_width profile hat_scale
  let hh := hat_height santa hw
  if 1 ≤ hw ∧ 1 ≤ hh then
    let a3 := stAlloc st2 (Image.resize santa hw.toNat hh.toNat)
    let st3 := a3.1
    let rR := a3.2
    let a4 := stAlloc st3 (Image.rotate (stRead st3 rR) hat_rotation)
    let st4 := a4.1
    let rRot := a4.2
    let a5 := stAlloc st4 (transparentLayer (stRead st4 rP))
    let st5 := a5.1
    let rT := a5.2
    let a6 := stAlloc st5
      (Image.alpha_composite (stRead st5 rP) (stRead st5 rT))
    let st6 := a6.1
    let rC := a6.2
    let st7 := stWrite st6 rC
      (Image.paste (stRead st6 rC) (stRead st6 rRot)
        (hat_position (stRead st6 rP) (stRead st6 rRot) hat_offset_x hat_offset_y))
    (st7, .ok rC)
  else (st2, .error .libraryValueError)

/-! Basic facts about the fixed-point blend macros. -/

theorem MULDIV255_zero (s : ℕ) : MULDIV255 s 0 = 0 := by
  simp [MULDIV255]

set_option maxRecDepth 4000 in
theorem MULDIV255_255 : ∀ d, d ≤ 255 → MULDIV255 d 255 = d := by decide

theorem BLEND_zero (d s : ℕ) (hd : d ≤ 255) : BLEND 0 d s = d := by
  simp [BLEND, MULDIV255_zero, MULDIV255_255 d hd]

theorem BLEND_full (d s : ℕ) (hs : s ≤ 255) : BLEND 255 d s = s := by
  simp [BLEND, MULDIV255_zero, MULDIV255_255 s hs]

theorem blendPixel_zero (d s : Pixel) (hd : d.r ≤ 255 ∧ d.g ≤ 255 ∧ d.b ≤ 255 ∧ d.a ≤ 255) :
    blendPixel 0 d s = d := by
  obtain ⟨h1, h2, h3, h4⟩ := hd
  simp [blendPixel, BLEND_zero _ _ h1, BLEND_zero _ _ h2, BLEND_zero _ _ h3,
    BLEND_zero _ _ h4]

theorem blendPixel_full (d s : Pixel)
    (hs : s.r ≤ 255 ∧ s.g ≤ 255 ∧ s.b ≤ 255 ∧ s.a ≤ 255) :
    blendPixel 255 d s = s := by
  obtain ⟨h1, h2, h3, h4⟩ := hs
  simp [blendPixel, BLEND_full _ _ h1, BLEND_full _ _ h2, BLEND_full _ _ h3,
    BLEND_full _ _ h4]

theorem alphaCompositePixel_transparent (d : Pixel) :
    alphaCompositePixel d transparentPixel = d := by
  simp [alphaCompositePixel, transparentPixel]

/-! Facts about the area-averaging resample. -/

theorem sum_colWeight (s t x : ℕ) (ht : 0 < t) (hx : x < t) :
    ∑ j ∈ Finset.range s, colWeight s t x j = (s : ℚ) / t := by
  have hlo : (0 : ℚ) ≤ (x : ℚ) * s / t := by positivity
  have hhi0 : (0 : ℚ) ≤ ((x : ℚ) + 1) * s / t := by positivity
  have hts : (0 : ℚ) < (t : ℚ) := by exact_mod_cast ht
  have hlohi : (x : ℚ) * s / t ≤ ((x : ℚ) + 1) * s / t := by
    gcongr
    linarith
  have hhis : ((x : ℚ) + 1) * s / t ≤ (s : ℚ) := by
    rw [div_le_iff₀ hts]
    have hx1 : ((x : ℚ) + 1) ≤ (t : ℚ) := by exact_mod_cast hx
    nlinarith [Nat.cast_nonneg (α := ℚ) s]
  have key : ∀ j : ℕ, colWeight s t x j =
      (fun n : ℕ => clampQ ((x : ℚ) * s / t) (((x : ℚ) + 1) * s / t) (n : ℚ)) (j + 1) -
      (fun n : ℕ => clampQ ((x : ℚ) * s / t) (((x : ℚ) + 1) * s / t) (n : ℚ)) j := by
    intro j
    simp [colWeight]
  rw [Finset.sum_congr rfl fun j _ => key j,
    Finset.sum_range_sub
      (fun n : ℕ => clampQ ((x : ℚ) * s / t) (((x : ℚ) + 1) * s / t) (n : ℚ)) s]
  have h1 : clampQ ((x : ℚ) * s / t) (((x : ℚ) + 1) * s / t) ((s : ℕ) : ℚ) =
      ((x : ℚ) + 1) * s / t := by
    unfold clampQ
    rw [min_eq_left hhis, max_eq_right hlohi]
  have h2 : clampQ ((x : ℚ) * s / t) (((x : ℚ) + 1) * s / t) ((0 : ℕ) : ℚ) =
      (x : ℚ) * s / t := by
    unfold clampQ
    rw [Nat.cast_zero, min_eq_right hhi0, max_eq_left hlo]
  simp only [h1, h2, div_sub_div_same]
  ring_nf

theorem resampleChannel_const (f : ℕ → ℕ → ℕ) (c : ℕ) (hc : c ≤ 255)
    (sw sh w h x y : ℕ) (hsw : 0 < sw) (hsh : 0 < sh) (hw : 0 < w) (hh : 0 < h)
    (hx : x < w) (hy : y < h)
    (hf : ∀ j, j < sw → ∀ i, i < sh → f j i = c) :
    resampleChannel f sw sh w h x y = c := by
  unfold resampleChannel
  have hsum : (∑ j ∈ Finset.range sw, ∑ i ∈ Finset.range sh,
      colWeight sw w x j * colWeight sh h y i * (f j i : ℚ)) =
      ((sw : ℚ) / w) * ((sh : ℚ) / h) * c := by
    have step : (∑ j ∈ Finset.range sw, ∑ i ∈ Finset.range sh,
        colWeight sw w x j * colWeight sh h y i * (f j i : ℚ)) =
        (∑ j ∈ Finset.range sw, colWeight sw w x j) *
        (∑ i ∈ Finset.range sh, colWeight sh h y i) * c := by
      rw [Finset.sum_mul_sum, Finset.sum_mul]
      refine Finset.sum_congr rfl fun j hj => ?_
      rw [Finset.sum_mul]
      refine Finset.sum_congr rfl fun i hi => ?_
      rw [hf j (Finset.mem_range.mp hj) i (Finset.mem_range.mp hi)]
    rw [step, sum_colWeight sw w x hw hx, sum_colWeight sh h y hh hy]
  rw [hsum]
  have hswq : ((sw : ℚ)) ≠ 0 := by positivity
  have hshq : ((sh : ℚ)) ≠ 0 := by positivity
  have hwq : ((w : ℚ)) ≠ 0 := by positivity
  have hhq : ((h : ℚ)) ≠ 0 := by positivity
  have : ((sw : ℚ) / w) * ((sh : ℚ) / h) * c * ((w : ℚ) * h / ((sw : ℚ) * sh)) =
      (c : ℚ) := by
    field_simp
  rw [this, round_natCast]
  simp only [clamp8]
  omega

theorem resampleChannel_zero (f : ℕ → ℕ → ℕ) (sw sh w h x y : ℕ)
    (hf : ∀ j, j < sw → ∀ i, i < sh → f j i = 0) :
    resampleChannel f sw sh w h x y = 0 := by
  unfold resampleChannel
  have hsum : (∑ j ∈ Finset.range sw, ∑ i ∈ Finset.range sh,
      colWeight sw w x j * colWeight sh h y i * (f j i : ℚ)) = 0 := by
    refine Finset.sum_eq_zero fun j hj => Finset.sum_eq_zero fun i hi => ?_
    rw [hf j (Finset.mem_range.mp hj) i (Finset.mem_range.mp hi)]
    simp
  rw [hsum, zero_mul, round_zero]
  simp [clamp8]

theorem resize_const_pix (sw sh : ℕ) (c : Pixel)
    (hc : c.r ≤ 255 ∧ c.g ≤ 255 ∧ c.b ≤ 255 ∧ c.a ≤ 255)
    (w h x y : ℕ) (hsw : 0 < sw) (hsh : 0 < sh) (hw : 0 < w) (hh : 0 < h)
    (hx : x < w) (hy : y < h) :
    ((Image.new sw sh c).resize w h).pix x y = c := by
  obtain ⟨h1, h2, h3, h4⟩ := hc
  simp only [Image.resize, Image.new]
  have hr := resampleChannel_const (fun _ _ => c.r) c.r h1 sw sh w h x y hsw hsh hw hh hx hy
    (fun _ _ _ _ => rfl)
  have hg := resampleChannel_const (fun _ _ => c.g) c.g h2 sw sh w h x y hsw hsh hw hh hx hy
    (fun _ _ _ _ => rfl)
  have hb := resampleChannel_const (fun _ _ => c.b) c.b h3 sw sh w h x y hsw hsh hw hh hx hy
    (fun _ _ _ _ => rfl)
  have ha := resampleChannel_const (fun _ _ => c.a) c.a h4 sw sh w h x y hsw hsh hw hh hx hy
    (fun _ _ _ _ => rfl)
  simp only at hr hg hb ha
  rw [hr, hg, hb, ha]

theorem resize_alpha_zero (im : Image)
    (h0 : ∀ j, j < im.width → ∀ i, i < im.height → (im.pix j i).a = 0)
    (w h x y : ℕ) : ((im.resize w h).pix x y).a = 0 := by
  simp only [Image.resize]
  exact resampleChannel_zero (fun j i => (im.pix j i).a) im.width im.height w h x y h0

theorem rotate_alpha_zero (im : Image)
    (h0 : ∀ x y, (im.pix x y).a = 0) (deg : ℤ) (x y : ℕ) :
    ((im.rotate deg).pix x y).a = 0 := by
  simp only [Image.rotate]
  split_ifs with h1 h2 h3 h4
  · exact h0 x y
  · exact h0 _ _
  · exact h0 _ _
  · exact h0 _ _
  · simp only
    split_ifs with h5
    · exact h0 _ _
    · rfl

/-! The composite pixel characterization. -/

theorem compositeImage_dims (profile santa : Image) (scale : ℚ) (dx dy rot : ℤ) :
    (compositeImage profile santa scale dx dy rot).width = profile.width ∧
    (compositeImage profile santa scale dx dy rot).height = profile.height := by
  constructor <;>
    simp [compositeImage, Image.paste, Image.alpha_composite, convertRGBA]

theorem compositeImage_pix (profile santa : Image) (scale : ℚ) (dx dy rot : ℤ)
    (x y : ℕ) :
    (compositeImage profile santa scale dx dy rot).pix x y =
      (if (hat_position profile (rotatedHat profile santa scale rot) dx dy).1 ≤ (x : ℤ) ∧
          (x : ℤ) < (hat_position profile (rotatedHat profile santa scale rot) dx dy).1 +
            (rotatedHat profile santa scale rot).width ∧
          (hat_position profile (rotatedHat profile santa scale rot) dx dy).2 ≤ (y : ℤ) ∧
          (y : ℤ) < (hat_position profile (rotatedHat profile santa scale rot) dx dy).2 +
            (rotatedHat profile santa scale rot).height then
        blendPixel
          ((rotatedHat profile santa scale rot).pix
            ((x : ℤ) - (hat_position profile (rotatedHat profile santa scale rot) dx dy).1).toNat
            ((y : ℤ) - (hat_position profile (rotatedHat profile santa scale rot) dx dy).2).toNat).a
          (profile.pix x y)
          ((rotatedHat profile santa scale rot).pix
            ((x : ℤ) - (hat_position profile (rotatedHat profile santa scale rot) dx dy).1).toNat
            ((y : ℤ) - (hat_position profile (rotatedHat profile santa scale rot) dx dy).2).toNat)
      else profile.pix x y) := by
  simp only [compositeImage, Image.paste, Image.alpha_composite, transparentLayer,
    Image.new, convertRGBA, alphaCompositePixel_transparent]

/-! Facts about Python int() truncation. -/

theorem pyInt_eq_floor (q : ℚ) (h : 0 ≤ q) : pyInt q = ⌊q⌋ := by
  simp [pyInt, not_lt.mpr h]

theorem pyInt_nonpos (q : ℚ) (h : q ≤ 0) : pyInt q ≤ 0 := by
  unfold pyInt
  split_ifs with hq
  · exact Int.ceil_le.mpr (by exact_mod_cast h)
  · have : ⌊q⌋ ≤ ⌊(0 : ℚ)⌋ := Int.floor_le_floor h
    simpa using this

/-! List helpers for the store model. -/

theorem getD_append_lt (l l2 : List Image) (n : ℕ) (h : n < l.length) :
    List.getD (l ++ l2) n default = List.getD l n default :=
  List.getD_append l l2 default n h

theorem getD_set_ne (l : List Image) (i n : ℕ) (im : Image) (hne : i ≠ n) :
    List.getD (List.set l i im) n default = List.getD l n default := by
  simp only [List.getD_eq_getElem?_getD]
  rw [List.getElem?_set_ne hne]

/-- Claim C5: the compositor mutates neither the base image reference nor
the overlay image reference in the store, and any reference it returns is
distinct from both inputs.  (Every PIL call in the source allocates a
fresh image; the only in-place operation, paste, acts on the freshly
allocated combined image.) -/
theorem c5_inputs_not_mutated (st : Store) (rp rh : ℕ) (hat_scale : ℚ)
    (dx dy rot : ℤ) (hp : rp < List.length st) (hh : rh < List.length st) :
    List.getD (add_santa_hat_state st rp rh hat_scale dx dy rot).1 rp default =
        List.getD st rp default ∧
    List.getD (add_santa_hat_state st rp rh hat_scale dx dy rot).1 rh default =
        List.getD st rh default ∧
    ∀ r, (add_santa_hat_state st rp rh hat_scale dx dy rot).2 = .ok r →
      rp ≠ r ∧ rh ≠ r := by
  unfold add_santa_hat_state
  simp only [stAlloc, stRead, stWrite]
  split_ifs with hg
  · refine ⟨?_, ?_, ?_⟩
    · rw [getD_set_ne _ _ _ _ (by simp [List.length_append]; omega)]
      rw [getD_append_lt _ _ _ (by simp [List.length_append]; omega)]
      rw [getD_append_lt _ _ _ (by simp [List.length_append]; omega)]
      rw [getD_append_lt _ _ _ (by simp [List.length_append]; omega)]
      rw [getD_append_lt _ _ _ (by simp [List.length_append]; omega)]
      rw [getD_append_lt _ _ _ (by simp [List.length_append]; omega)]
      rw [getD_append_lt _ _ _ hp]
    · rw [getD_set_ne _ _ _ _ (by simp [List.length_append]; omega)]
      rw [getD_append_lt _ _ _ (by simp [List.length_append]; omega)]
      rw [getD_append_lt _ _ _ (by simp [List.length_append]; omega)]
      rw [getD_append_lt _ _ _ (by simp [List.length_append]; omega)]
      rw [getD_append_lt _ _ _ (by simp [List.length_append]; omega)]
      rw [getD_append_lt _ _ _ (by simp [List.length_append]; omega)]
      rw [getD_append_lt _ _ _ hh]
    · intro r heq
      simp only [Except.ok.injEq] at heq
      simp only [List.length_append, List.length_cons, List.length_nil] at heq
      omega
  · refine ⟨?_, ?_, ?_⟩
    · rw [getD_append_lt _ _ _ (by simp [List.length_append]; omega)]
      rw [getD_append_lt _ _ _ hp]
    · rw [getD_append_lt _ _ _ (by simp [List.length_append]; omega)]
      rw [getD_append_lt _ _ _ hh]
    · intro r heq
      simp at heq

/-- Witness for C5 at a concrete two-image store. -/
theorem c5_inputs_not_mutated_witness :
    List.getD (add_santa_hat_state
        [Image.new 2 2 transparentPixel, Image.new 3 3 transparentPixel]
        0 1 1 0 0 0).1 0 default =
      List.getD [Image.new 2 2 transparentPixel, Image.new 3 3 transparentPixel]
        0 default ∧
    List.getD (add_santa_hat_state
        [Image.new 2 2 transparentPixel, Image.new 3 3 transparentPixel]
        0 1 1 0 0 0).1 1 default =
      List.getD [Image.new 2 2 transparentPixel, Image.new 3 3 transparentPixel]
        1 default :=
  ⟨(c5_inputs_not_mutated
      [Image.new 2 2 transparentPixel, Image.new 3 3 transparentPixel]
      0 1 1 0 0 0 (by decide) (by decide)).1,
   (c5_inputs_not_mutated
      [Image.new 2 2 transparentPixel, Image.new 3 3 transparentPixel]
      0 1 1 0 0 0 (by decide) (by decide)).2.1⟩

/-- Claim C1: whenever the compositor returns an image, that image has
exactly the width and height of the base image, for every scale, offset
and rotation (the paste step clips the overlay instead of growing the
canvas); otherwise the call fails with the library error. -/
theorem c1_dimension_invariant (profile_image santa_hat : Image) (hat_scale : ℚ)
    (dx dy rot : ℤ) :
    (add_santa_hat profile_image santa_hat hat_scale dx dy rot).map
        (fun o => (o.width, o.height)) =
      .ok (profile_image.width, profile_image.height) ∨
    add_santa_hat profile_image santa_hat hat_scale dx dy rot =
      .error .libraryValueError := by
  unfold add_santa_hat
  split_ifs with h
  · left
    obtain ⟨h1, h2⟩ := compositeImage_dims profile_image santa_hat hat_scale dx dy rot
    simp [Except.map, h1, h2]
  · right
    rfl

/-- Rotation by 0 degrees is Pillow's exact fast path: a copy. -/
theorem rotate_zero (im : Image) : im.rotate 0 = im := by
  simp [Image.rotate]

/-- Claim C8: with rotation 0 the compositor agrees exactly, error cases
included, with the spec-modelled pipeline that skips the
rotation-and-expansion step entirely. -/
theorem c8_rotation_neutrality (profile_image santa_hat : Image) (hat_scale : ℚ)
    (dx dy : ℤ) :
    add_santa_hat profile_image santa_hat hat_scale dx dy 0 =
      add_santa_hat_norotate profile_image santa_hat hat_scale dx dy := by
  unfold add_santa_hat add_santa_hat_norotate
  split_ifs with h
  · simp only [compositeImage, rotatedHat, rotate_zero]
  · rfl

/-- Claim C4: the placement position is horizontal floor-division centering
plus the signed horizontal offset, the vertical offset taken directly; and
with offset 0 the horizontal midpoint of the placed overlay box is within
one pixel of the horizontal midpoint of the base. -/
theorem c4_placement (profile_image rotated : Image) (dx dy : ℤ) :
    hat_position profile_image rotated dx dy =
      (Int.fdiv ((profile_image.width : ℤ) - (rotated.width : ℤ)) 2 + dx, dy) ∧
    |(((hat_position profile_image rotated 0 dy).1 : ℚ) + (rotated.width : ℚ) / 2) -
      (profile_image.width : ℚ) / 2| ≤ 1 := by
  refine ⟨rfl, ?_⟩
  have h1 : 2 * (((profile_image.width : ℤ) - (rotated.width : ℤ)) / 2) ≤
      (profile_image.width : ℤ) - (rotated.width : ℤ) := by omega
  have h2 : (profile_image.width : ℤ) - (rotated.width : ℤ) <
      2 * (((profile_image.width : ℤ) - (rotated.width : ℤ)) / 2) + 2 := by omega
  have hfd : Int.fdiv ((profile_image.width : ℤ) - (rotated.width : ℤ)) 2 =
      ((profile_image.width : ℤ) - (rotated.width : ℤ)) / 2 :=
    Int.fdiv_eq_ediv _ (by norm_num)
  have hc1 : (2 : ℚ) * (((((profile_image.width : ℤ) - (rotated.width : ℤ)) / 2 : ℤ)) : ℚ) ≤
      (profile_image.width : ℚ) - (rotated.width : ℚ) := by exact_mod_cast h1
  have hc2 : (profile_image.width : ℚ) - (rotated.width : ℚ) <
      2 * (((((profile_image.width : ℤ) - (rotated.width : ℤ)) / 2 : ℤ)) : ℚ) + 2 := by
    exact_mod_cast h2
  simp only [hat_position, add_zero, hfd]
  rw [abs_le]
  constructor <;> linarith

/-- Counterexample to claim C2 as stated: with a 4-pixel-wide base and
scale 7/8, the code computes int(4 * 7/8) = int(3.5) = 3 (truncation),
while round(4 * 7/8) = 4; the resized overlay width is 3, not 4. -/
theorem c2_counterexample :
    hat_width (Image.new 4 4 transparentPixel) (7/8) = 3 ∧
    round (((Image.new 4 4 transparentPixel).width : ℚ) * (7/8)) = 4 ∧
    (resizedHat (Image.new 4 4 transparentPixel) (Image.new 4 4 transparentPixel)
      (7/8)).width = 3 ∧
    (3 : ℤ) ≠ 4 := by
  have hwid : hat_width (Image.new 4 4 transparentPixel) (7/8) = 3 := by
    norm_num [hat_width, pyInt, Image.new]
  refine ⟨hwid, ?_, ?_, by decide⟩
  · rw [round_eq]
    norm_num [Image.new]
  · simp only [resizedHat, convertRGBA, Image.resize, hwid]
    rfl

/-- Claim C2 amended: for positive scale the resized overlay width before
rotation is the truncation int(base.width * scale) = floor, and the height
is int(overlay.height * (hatWidth / overlay.width)) = floor, not the
nearest-integer rounding the claim states. -/
theorem c2_amended_truncated_scaling (profile_image santa_hat : Image)
    (hat_scale : ℚ) (h : 0 < hat_scale) :
    hat_width profile_image hat_scale = ⌊(profile_image.width : ℚ) * hat_scale⌋ ∧
    hat_height santa_hat (hat_width profile_image hat_scale) =
      ⌊(santa_hat.height : ℚ) *
        ((hat_width profile_image hat_scale : ℚ) / (santa_hat.width : ℚ))⌋ ∧
    (resizedHat profile_image santa_hat hat_scale).width =
      (hat_width profile_image hat_scale).toNat ∧
    (resizedHat profile_image santa_hat hat_scale).height =
      (hat_height santa_hat (hat_width profile_image hat_scale)).toNat := by
  have h1 : (0 : ℚ) ≤ (profile_image.width : ℚ) * hat_scale :=
    mul_nonneg (Nat.cast_nonneg _) h.le
  have hw : hat_width profile_image hat_scale = ⌊(profile_image.width : ℚ) * hat_scale⌋ :=
    pyInt_eq_floor _ h1
  have h2 : (0 : ℚ) ≤ (santa_hat.height : ℚ) *
      ((hat_width profile_image hat_scale : ℚ) / (santa_hat.width : ℚ)) := by
    have : (0 : ℚ) ≤ (hat_width profile_image hat_scale : ℚ) := by
      rw [hw]
      exact_mod_cast Int.floor_nonneg.mpr h1
    positivity
  exact ⟨hw, pyInt_eq_floor _ h2, rfl, rfl⟩

/-- Witness for the amended C2 at scale 1 on a 2 by 2 base. -/
theorem c2_amended_truncated_scaling_witness :
    hat_width (Image.new 2 2 transparentPixel) 1 =
      ⌊((Image.new 2 2 transparentPixel).width : ℚ) * 1⌋ :=
  (c2_amended_truncated_scaling (Image.new 2 2 transparentPixel)
    (Image.new 3 3 transparentPixel) 1 one_pos).1

/-- Counterexample to claim C6 as stated: at the non-positive scale -1 the
core does not fail fast with an InvalidParameter error; the failure that
surfaces is the library ValueError raised inside the resize call. -/
theorem c6_counterexample :
    add_santa_hat (Image.new 4 4 transparentPixel) (Image.new 4 4 transparentPixel)
      (-1) 0 0 0 = .error .libraryValueError ∧
    (Except.error CompositeError.libraryValueError : Except CompositeError Image) ≠
      .error .invalidParameter := by
  constructor
  · unfold add_santa_hat
    rw [if_neg]
    intro hcon
    have hneg : hat_width (convertRGBA (Image.new 4 4 transparentPixel)) (-1) ≤ 0 := by
      apply pyInt_nonpos
      norm_num [Image.new, convertRGBA]
    omega
  · intro hcon
    have := Except.error.inj hcon
    exact absurd this (by decide)

/-- Claim C6 amended: the core performs no parameter validation; whenever
the scale is non-positive, or the computed target width or height is below
1, the call surfaces the library ValueError from the resize step (and in
particular never an InvalidParameter error, and never an image). -/
theorem c6_amended_no_validation (profile_image santa_hat : Image)
    (hat_scale : ℚ) (dx dy rot : ℤ)
    (h : hat_scale ≤ 0 ∨
      hat_width (convertRGBA profile_image) hat_scale < 1 ∨
      hat_height (convertRGBA santa_hat)
        (hat_width (convertRGBA profile_image) hat_scale) < 1) :
    add_santa_hat profile_image santa_hat hat_scale dx dy rot =
      .error .libraryValueError := by
  unfold add_santa_hat
  rw [if_neg]
  intro hcon
  rcases h with h | h | h
  · have hneg : hat_width (convertRGBA profile_image) hat_scale ≤ 0 := by
      apply pyInt_nonpos
      exact mul_nonpos_of_nonneg_of_nonpos (Nat.cast_nonneg _) h
    omega
  · omega
  · omega

/-- Witness for the amended C6 at scale 0. -/
theorem c6_amended_no_validation_witness :
    add_santa_hat (Image.new 1 1 transparentPixel) (Image.new 1 1 transparentPixel)
      0 0 0 0 = .error .libraryValueError :=
  c6_amended_no_validation (Image.new 1 1 transparentPixel)
    (Image.new 1 1 transparentPixel) 0 0 0 0 (Or.inl le_rfl)

/-- Claim C10: the preconditions admit inputs (base width 100, overlay
1000 by 1, scale 1/2) for which the computed target width is the positive
50 while the computed target height is int(1 * 50/1000) = 0, so the resize
step is reached with a degenerate zero-height target and no parameter
check rejects it; the call then surfaces the library error from resize. -/
theorem c10_zero_height_target :
    (0 : ℚ) < 1/2 ∧
    hat_width (Image.new 100 100 transparentPixel) (1/2) = 50 ∧
    hat_height (Image.new 1000 1 transparentPixel) 50 = 0 ∧
    add_santa_hat (Image.new 100 100 transparentPixel)
      (Image.new 1000 1 transparentPixel) (1/2) 0 0 0 =
      .error .libraryValueError := by
  have hwid : hat_width (Image.new 100 100 transparentPixel) (1/2) = 50 := by
    norm_num [hat_width, pyInt, Image.new]
  have hhei : hat_height (Image.new 1000 1 transparentPixel) 50 = 0 := by
    norm_num [hat_height, pyInt, Image.new]
  refine ⟨by norm_num, hwid, hhei, ?_⟩
  unfold add_santa_hat
  rw [if_neg]
  simp only [convertRGBA, hwid, hhei]
  omega

/-- Claim C3 amended: whenever the compositor returns an image, every
output pixel inside the placed overlay box is the per-channel Pillow
fixed-point interpolation (BLEND) between the base pixel and the overlay
pixel weighted by the overlay alpha — the alpha channel included, which
differs from the standard over operator — and every pixel outside the box
equals the base pixel; otherwise the call fails with the library error. -/
theorem c3_paste_blend (profile_image santa_hat : Image) (hat_scale : ℚ)
    (dx dy rot : ℤ) (x y : ℕ)
    (hx : x < profile_image.width) (hy : y < profile_image.height) :
    (add_santa_hat profile_image santa_hat hat_scale dx dy rot).map
        (fun o => o.pix x y) =
      .ok (if (hat_position profile_image
            (rotatedHat profile_image santa_hat hat_scale rot) dx dy).1 ≤ (x : ℤ) ∧
          (x : ℤ) < (hat_position profile_image
            (rotatedHat profile_image santa_hat hat_scale rot) dx dy).1 +
            (rotatedHat profile_image santa_hat hat_scale rot).width ∧
          (hat_position profile_image
            (rotatedHat profile_image santa_hat hat_scale rot) dx dy).2 ≤ (y : ℤ) ∧
          (y : ℤ) < (hat_position profile_image
            (rotatedHat profile_image santa_hat hat_scale rot) dx dy).2 +
            (rotatedHat profile_image santa_hat hat_scale rot).height then
        blendPixel
          ((rotatedHat profile_image santa_hat hat_scale rot).pix
            ((x : ℤ) - (hat_position profile_image
              (rotatedHat profile_image santa_hat hat_scale rot) dx dy).1).toNat
            ((y : ℤ) - (hat_position profile_image
              (rotatedHat profile_image santa_hat hat_scale rot) dx dy).2).toNat).a
          (profile_image.pix x y)
          ((rotatedHat profile_image santa_hat hat_scale rot).pix
            ((x : ℤ) - (hat_position profile_image
              (rotatedHat profile_image santa_hat hat_scale rot) dx dy).1).toNat
            ((y : ℤ) - (hat_position profile_image
              (rotatedHat profile_image santa_hat hat_scale rot) dx dy).2).toNat)
      else profile_image.pix x y) ∨
    add_santa_hat profile_image santa_hat hat_scale dx dy rot =
      .error .libraryValueError := by
  by_cases h : 1 ≤ hat_width (convertRGBA profile_image) hat_scale ∧
      1 ≤ hat_height (convertRGBA santa_hat)
        (hat_width (convertRGBA profile_image) hat_scale)
  · left
    unfold add_santa_hat
    rw [if_pos h]
    simp only [Except.map]
    exact congrArg Except.ok
      (compositeImage_pix profile_image santa_hat hat_scale dx dy rot x y)
  · right
    unfold add_santa_hat
    rw [if_neg h]

/-- Witness for the amended C3 at a concrete input. -/
theorem c3_paste_blend_witness :
    (add_santa_hat (Image.new 2 2 ⟨1, 2, 3, 255⟩) (Image.new 2 2 ⟨9, 8, 7, 255⟩)
        1 0 0 0).map (fun o => o.pix 1 1) =
      .ok (if (hat_position (Image.new 2 2 ⟨1, 2, 3, 255⟩)
            (rotatedHat (Image.new 2 2 ⟨1, 2, 3, 255⟩) (Image.new 2 2 ⟨9, 8, 7, 255⟩)
              1 0) 0 0).1 ≤ ((1 : ℕ) : ℤ) ∧
          ((1 : ℕ) : ℤ) < (hat_position (Image.new 2 2 ⟨1, 2, 3, 255⟩)
            (rotatedHat (Image.new 2 2 ⟨1, 2, 3, 255⟩) (Image.new 2 2 ⟨9, 8, 7, 255⟩)
              1 0) 0 0).1 +
            (rotatedHat (Image.new 2 2 ⟨1, 2, 3, 255⟩) (Image.new 2 2 ⟨9, 8, 7, 255⟩)
              1 0).width ∧
          (hat_position (Image.new 2 2 ⟨1, 2, 3, 255⟩)
            (rotatedHat (Image.new 2 2 ⟨1, 2, 3, 255⟩) (Image.new 2 2 ⟨9, 8, 7, 255⟩)
              1 0) 0 0).2 ≤ ((1 : ℕ) : ℤ) ∧
          ((1 : ℕ) : ℤ) < (hat_position (Image.new 2 2 ⟨1, 2, 3, 255⟩)
            (rotatedHat (Image.new 2 2 ⟨1, 2, 3, 255⟩) (Image.new 2 2 ⟨9, 8, 7, 255⟩)
              1 0) 0 0).2 +
            (rotatedHat (Image.new 2 2 ⟨1, 2, 3, 255⟩) (Image.new 2 2 ⟨9, 8, 7, 255⟩)
              1 0).height then
        blendPixel
          ((rotatedHat (Image.new 2 2 ⟨1, 2, 3, 255⟩) (Image.new 2 2 ⟨9, 8, 7, 255⟩)
              1 0).pix
            (((1 : ℕ) : ℤ) - (hat_position (Image.new 2 2 ⟨1, 2, 3, 255⟩)
              (rotatedHat (Image.new 2 2 ⟨1, 2, 3, 255⟩) (Image.new 2 2 ⟨9, 8, 7, 255⟩)
                1 0) 0 0).1).toNat
            (((1 : ℕ) : ℤ) - (hat_position (Image.new 2 2 ⟨1, 2, 3, 255⟩)
              (rotatedHat (Image.new 2 2 ⟨1, 2, 3, 255⟩) (Image.new 2 2 ⟨9, 8, 7, 255⟩)
                1 0) 0 0).2).toNat).a
          ((Image.new 2 2 ⟨1, 2, 3, 255⟩).pix 1 1)
          ((rotatedHat (Image.new 2 2 ⟨1, 2, 3, 255⟩) (Image.new 2 2 ⟨9, 8, 7, 255⟩)
              1 0).pix
            (((1 : ℕ) : ℤ) - (hat_position (Image.new 2 2 ⟨1, 2, 3, 255⟩)
              (rotatedHat (Image.new 2 2 ⟨1, 2, 3, 255⟩) (Image.new 2 2 ⟨9, 8, 7, 255⟩)
                1 0) 0 0).1).toNat
            (((1 : ℕ) : ℤ) - (hat_position (Image.new 2 2 ⟨1, 2, 3, 255⟩)
              (rotatedHat (Image.new 2 2 ⟨1, 2, 3, 255⟩) (Image.new 2 2 ⟨9, 8, 7, 255⟩)
                1 0) 0 0).2).toNat)
      else (Image.new 2 2 ⟨1, 2, 3, 255⟩).pix 1 1) ∨
    add_santa_hat (Image.new 2 2 ⟨1, 2, 3, 255⟩) (Image.new 2 2 ⟨9, 8, 7, 255⟩)
        1 0 0 0 = .error .libraryValueError :=
  c3_paste_blend (Image.new 2 2 ⟨1, 2, 3, 255⟩) (Image.new 2 2 ⟨9, 8, 7, 255⟩)
    1 0 0 0 1 1 (by decide) (by decide)

/-- The resize embedding returns exactly the requested width. -/
theorem resize_width (im : Image) (w h : ℕ) : (im.resize w h).width = w := rfl

/-- The resize embedding returns exactly the requested height. -/
theorem resize_height (im : Image) (w h : ℕ) : (im.resize w h).height = h := rfl

/-- Counterexample to claim C3 as stated: compositing a half-transparent
overlay pixel (alpha 128) onto an opaque base pixel yields output alpha
191 under the code's masked paste, while the standard over operator the
claim demands yields output alpha 255. -/
theorem c3_counterexample :
    (add_santa_hat (Image.new 2 2 ⟨10, 20, 30, 255⟩) (Image.new 1 1 ⟨100, 0, 0, 128⟩)
        (1/2) 0 0 0).map (fun o => (o.pix 0 0).a) = .ok 191 ∧
    overAlpha 128 255 = 255 ∧
    (191 : ℕ) ≠ 255 := by
  refine ⟨?_, by decide, by decide⟩
  have hw : hat_width (Image.new 2 2 ⟨10, 20, 30, 255⟩) (1/2) = 1 := by
    norm_num [hat_width, pyInt, Image.new]
  have hh : hat_height (Image.new 1 1 ⟨100, 0, 0, 128⟩) 1 = 1 := by
    norm_num [hat_height, pyInt, Image.new]
  have hresz : resizedHat (Image.new 2 2 ⟨10, 20, 30, 255⟩)
      (Image.new 1 1 ⟨100, 0, 0, 128⟩) (1/2) =
      Image.resize (Image.new 1 1 ⟨100, 0, 0, 128⟩) 1 1 := by
    simp only [resizedHat, convertRGBA]
    rw [hw, hh]
    rfl
  have hrot : rotatedHat (Image.new 2 2 ⟨10, 20, 30, 255⟩)
      (Image.new 1 1 ⟨100, 0, 0, 128⟩) (1/2) 0 =
      Image.resize (Image.new 1 1 ⟨100, 0, 0, 128⟩) 1 1 := by
    rw [rotatedHat, rotate_zero, hresz]
  unfold add_santa_hat
  simp only [convertRGBA]
  simp only [hw, hh]
  rw [if_pos (by norm_num)]
  simp only [Except.map]
  refine congrArg Except.ok ?_
  rw [compositeImage_pix]
  rw [hrot]
  rw [if_pos]
  · show (blendPixel ((Image.resize (Image.new 1 1 ⟨100, 0, 0, 128⟩) 1 1).pix 0 0).a
        ((Image.new 2 2 ⟨10, 20, 30, 255⟩).pix 0 0)
        ((Image.resize (Image.new 1 1 ⟨100, 0, 0, 128⟩) 1 1).pix 0 0)).a = 191
    rw [resize_const_pix 1 1 ⟨100, 0, 0, 128⟩ (by decide) 1 1 0 0 (by decide) (by decide)
      (by decide) (by decide) (by decide) (by decide)]
    decide
  · show (hat_position (Image.new 2 2 ⟨10, 20, 30, 255⟩)
        (Image.resize (Image.new 1 1 ⟨100, 0, 0, 128⟩) 1 1) 0 0).1 ≤ ((0 : ℕ) : ℤ) ∧
      ((0 : ℕ) : ℤ) < _ + (Image.resize (Image.new 1 1 ⟨100, 0, 0, 128⟩) 1 1).width ∧ _
    refine ⟨by decide, by decide, by decide, by decide⟩

/-- Claim C7: compositing an overlay whose alpha is 0 at every in-range
pixel onto a byte-valued base returns, whenever an image is returned at
all, an image with the dimensions of the base and every in-range pixel
identical to the base (the transparent overlay is an identity element);
otherwise the call fails with the library error. -/
theorem c7_transparent_overlay_noop (profile_image santa_hat : Image)
    (hat_scale : ℚ) (dx dy rot : ℤ) (x y : ℕ)
    (hv : profile_image.Valid)
    (ha : ∀ j, j < santa_hat.width → ∀ i, i < santa_hat.height →
      (santa_hat.pix j i).a = 0)
    (hx : x < profile_image.width) (hy : y < profile_image.height) :
    (add_santa_hat profile_image santa_hat hat_scale dx dy rot).map
        (fun o => (o.width, o.height, o.pix x y)) =
      .ok (profile_image.width, profile_image.height, profile_image.pix x y) ∨
    add_santa_hat profile_image santa_hat hat_scale dx dy rot =
      .error .libraryValueError := by
  by_cases h : 1 ≤ hat_width (convertRGBA profile_image) hat_scale ∧
      1 ≤ hat_height (convertRGBA santa_hat)
        (hat_width (convertRGBA profile_image) hat_scale)
  · left
    unfold add_santa_hat
    rw [if_pos h]
    simp only [Except.map]
    refine congrArg Except.ok ?_
    obtain ⟨hw1, hh1⟩ := compositeImage_dims profile_image santa_hat hat_scale dx dy rot
    have hzero : ∀ u v,
        ((rotatedHat profile_image santa_hat hat_scale rot).pix u v).a = 0 := by
      intro u v
      simp only [rotatedHat]
      refine rotate_alpha_zero _ ?_ rot u v
      intro p q
      simp only [resizedHat]
      exact resize_alpha_zero (convertRGBA santa_hat) ha _ _ p q
    have hpix : (compositeImage profile_image santa_hat hat_scale dx dy rot).pix x y =
        profile_image.pix x y := by
      rw [compositeImage_pix]
      split_ifs with hbox
      · rw [hzero]
        exact blendPixel_zero _ _ (hv x hx y hy)
      · rfl
    rw [hw1, hh1, hpix]
  · right
    unfold add_santa_hat
    rw [if_neg h]

/-- Witness for C7 at a concrete opaque base and transparent overlay. -/
theorem c7_transparent_overlay_noop_witness :
    (add_santa_hat (Image.new 2 2 ⟨5, 6, 7, 255⟩) (Image.new 2 2 transparentPixel)
        1 0 0 0).map (fun o => (o.width, o.height, o.pix 0 1)) =
      .ok ((Image.new 2 2 ⟨5, 6, 7, 255⟩).width, (Image.new 2 2 ⟨5, 6, 7, 255⟩).height,
        (Image.new 2 2 ⟨5, 6, 7, 255⟩).pix 0 1) ∨
    add_santa_hat (Image.new 2 2 ⟨5, 6, 7, 255⟩) (Image.new 2 2 transparentPixel)
        1 0 0 0 = .error .libraryValueError :=
  c7_transparent_overlay_noop (Image.new 2 2 ⟨5, 6, 7, 255⟩)
    (Image.new 2 2 transparentPixel) 1 0 0 0 0 1
    (by decide) (by decide) (by decide) (by decide)

/-- The 800 by 800 opaque white base image of the spec scenario. -/
def c9Base : Image := Image.new 800 800 ⟨255, 255, 255, 255⟩

/-- The 200 by 100 opaque red overlay image of the spec scenario. -/
def c9Hat : Image := Image.new 200 100 ⟨255, 0, 0, 255⟩

/-- Claim C9: for the spec scenario (white 800 by 800 base, red 200 by 100
overlay, scale 1/2, offsets 0, rotation 0) the resized overlay is 400 by
200, it is placed at (200, 0), and the output is red exactly on rows
0..199 and columns 200..599 and white elsewhere. -/
theorem c9_scenario (x y : ℕ) (hx : x < 800) (hy : y < 800) :
    hat_width c9Base (1/2) = 400 ∧
    hat_height c9Hat 400 = 200 ∧
    (resizedHat c9Base c9Hat (1/2)).width = 400 ∧
    (resizedHat c9Base c9Hat (1/2)).height = 200 ∧
    hat_position c9Base (rotatedHat c9Base c9Hat (1/2) 0) 0 0 = (200, 0) ∧
    (add_santa_hat c9Base c9Hat (1/2) 0 0 0).map
        (fun o => (o.width, o.height, o.pix x y)) =
      .ok (800, 800, if 200 ≤ x ∧ x < 600 ∧ y < 200 then (⟨255, 0, 0, 255⟩ : Pixel)
        else ⟨255, 255, 255, 255⟩) := by
  have hw : hat_width c9Base (1/2) = 400 := by
    norm_num [hat_width, pyInt, c9Base, Image.new]
  have hh : hat_height c9Hat 400 = 200 := by
    norm_num [hat_height, pyInt, c9Hat, Image.new]
  have hresz : resizedHat c9Base c9Hat (1/2) = Image.resize c9Hat 400 200 := by
    simp only [resizedHat, convertRGBA]
    rw [hw, hh]
    rfl
  have hrot : rotatedHat c9Base c9Hat (1/2) 0 = Image.resize c9Hat 400 200 := by
    rw [rotatedHat, rotate_zero, hresz]
  have hpos : hat_position c9Base (Image.resize c9Hat 400 200) 0 0 = (200, 0) := by
    decide
  have hred : ∀ u v, u < 400 → v < 200 →
      ((Image.new 200 100 (⟨255, 0, 0, 255⟩ : Pixel)).resize 400 200).pix u v =
        ⟨255, 0, 0, 255⟩ := fun u v hu hv =>
    resize_const_pix 200 100 _ (by decide) 400 200 u v (by decide) (by decide)
      (by decide) (by decide) hu hv
  have hpix : (compositeImage c9Base c9Hat (1/2) 0 0 0).pix x y =
      if 200 ≤ x ∧ x < 600 ∧ y < 200 then (⟨255, 0, 0, 255⟩ : Pixel)
      else ⟨255, 255, 255, 255⟩ := by
    rw [compositeImage_pix, hrot, hpos]
    dsimp only
    simp only [resize_width, resize_height]
    by_cases hbox : 200 ≤ x ∧ x < 600 ∧ y < 200
    · rw [if_pos (by push_cast; omega :
          (200 : ℤ) ≤ (x : ℤ) ∧ (x : ℤ) < 200 + ((400 : ℕ) : ℤ) ∧
          (0 : ℤ) ≤ (y : ℤ) ∧ (y : ℤ) < 0 + ((200 : ℕ) : ℤ)), if_pos hbox]
      simp only [c9Hat]
      rw [hred _ _ (by omega) (by omega)]
      exact blendPixel_full _ _ (by decide)
    · rw [if_neg (by push_cast; omega :
          ¬((200 : ℤ) ≤ (x : ℤ) ∧ (x : ℤ) < 200 + ((400 : ℕ) : ℤ) ∧
            (0 : ℤ) ≤ (y : ℤ) ∧ (y : ℤ) < 0 + ((200 : ℕ) : ℤ))), if_neg hbox]
      rfl
  refine ⟨hw, hh, by rw [hresz]; rfl, by rw [hresz]; rfl, by rw [hrot]; exact hpos, ?_⟩
  unfold add_santa_hat
  simp only [convertRGBA]
  simp only [hw, hh]
  rw [if_pos (by norm_num)]
  simp only [Except.map]
  refine congrArg Except.ok ?_
  obtain ⟨hdw, hdh⟩ := compositeImage_dims c9Base c9Hat (1/2) 0 0 0
  rw [hdw, hdh, hpix]
  rfl

/-- Witness for C9 at the concrete output pixel (250, 50). -/
theorem c9_scenario_witness :
    hat_width c9Base (1/2) = 400 ∧
    hat_height c9Hat 400 = 200 ∧
    (resizedHat c9Base c9Hat (1/2)).width = 400 ∧
    (resizedHat c9Base c9Hat (1/2)).height = 200 ∧
    hat_position c9Base (rotatedHat c9Base c9Hat (1/2) 0) 0 0 = (200, 0) ∧
    (add_santa_hat c9Base c9Hat (1/2) 0 0 0).map
        (fun o => (o.width, o.height, o.pix 250 50)) =
      .ok (800, 800, if 200 ≤ 250 ∧ 250 < 600 ∧ 50 < 200 then (⟨255, 0, 0, 255⟩ : Pixel)
        else ⟨255, 255, 255, 255⟩) :=
  c9_scenario 250 50 (by decide) (by decide)
